import Mathlib

/-!
Verification of the documentation synthesis engine of `eslint-doc-generator`
against its natural-language specification.

Shallow embedding notes:
* A document is a `List String` of lines, exactly as the source splits file
  contents on newline characters.
* JavaScript `String.prototype.startsWith` and `String.prototype.includes`
  are modelled on the character data of the strings (`strStartsWith`,
  `strIncludes`).
* In-place array mutation (`Array.prototype.splice`) is modelled by returning
  the resulting list.
-/

namespace EDG

/-- Model of JavaScript `s.startsWith(p)`: the character sequence of `p`
is a prefix of the character sequence of `s`. -/
def strStartsWith (s p : String) : Bool :=
  p.data.isPrefixOf s.data

/-- Substring containment on character lists: `containsSub small big` is
true iff `small` occurs contiguously inside `big`. -/
def containsSub (small : List Char) : List Char → Bool
  | [] => small.isEmpty
  | b :: t => small.isPrefixOf (b :: t) || containsSub small t

/-- Model of JavaScript `s.includes(sub)`. -/
def strIncludes (s sub : String) : Bool :=
  containsSub sub.data s.data

/-- Model of JavaScript `Array.prototype.indexOf` on lines: index of the
first line equal to `m`, or `none` when absent (`-1` in the source). -/
def idxOfLine : List String → String → Option Nat
  | [], _ => none
  | l :: ls, m => if l = m then some 0 else (idxOfLine ls m).map (fun i => i + 1)

/-- Embedding of `replaceOrCreateHeader` (`src/unnamed/part_000`, lines 29-43).
The source computes `markerLineIndex = lines.indexOf(marker)`; when the marker
is absent and the first line starts with `"# "` it deletes that line
(`lines.splice(0, 1)`), and finally runs
`lines.splice(0, markerLineIndex + 1, ...newHeaderLines)` (with
`markerLineIndex + 1 = 0` deleting nothing when the marker is absent). -/
def replaceOrCreateHeader (lines newHeaderLines : List String) (marker : String) :
    List String :=
  match idxOfLine lines marker with
  | some i => newHeaderLines ++ lines.drop (i + 1)
  | none =>
    if !lines.isEmpty && strStartsWith (lines.headD "") "# " then
      newHeaderLines ++ lines.drop 1
    else
      newHeaderLines ++ lines

theorem idxOfLine_append (pre rest : List String) (m : String) (h : m ∉ pre) :
    idxOfLine (pre ++ m :: rest) m = some pre.length := by
  induction pre with
  | nil => simp [idxOfLine]
  | cons a pre ih =>
    simp only [List.mem_cons, not_or] at h
    have ha : ¬(a = m) := fun hh => h.1 hh.symm
    simp [idxOfLine, ha, ih h.2]

theorem idxOfLine_eq_none (lines : List String) (m : String) :
    idxOfLine lines m = none ↔ m ∉ lines := by
  induction lines with
  | nil => simp [idxOfLine]
  | cons a ls ih =>
    by_cases ha : a = m
    · subst ha
      simp [idxOfLine]
    · have ha2 : ¬(m = a) := fun hh => ha hh.symm
      simp [idxOfLine, ha, ha2, Option.map_eq_none', ih]

theorem idxOfLine_some (lines : List String) (m : String) :
    ∀ i, idxOfLine lines m = some i →
      ∃ pre rest, lines = pre ++ m :: rest ∧ pre.length = i ∧ m ∉ pre := by
  induction lines with
  | nil => intro i h; simp [idxOfLine] at h
  | cons a ls ih =>
    intro i h
    by_cases ha : a = m
    · subst ha
      have h0 : i = 0 := by simpa [idxOfLine, eq_comm] using h
      exact ⟨[], ls, rfl, by simp [h0], by simp⟩
    · simp only [idxOfLine, if_neg ha, Option.map_eq_some'] at h
      obtain ⟨j, hj, hji⟩ := h
      obtain ⟨pre, rest, hdec, hlen, hm⟩ := ih j hj
      refine ⟨a :: pre, rest, by rw [hdec, List.cons_append], ?_, ?_⟩
      · simp [hlen, hji]
      · simp only [List.mem_cons, not_or]
        exact ⟨fun hh => ha hh.symm, hm⟩

theorem drop_succ_length_append (pre : List String) (x : String) (rest : List String) :
    (pre ++ x :: rest).drop (pre.length + 1) = rest := by
  induction pre with
  | nil => simp
  | cons a p ih => simp [ih]

theorem replaceOrCreateHeader_shape (lines nh : List String) (m : String) :
    ∃ s, s <:+ lines ∧ replaceOrCreateHeader lines nh m = nh ++ s := by
  unfold replaceOrCreateHeader
  cases h : idxOfLine lines m with
  | some i => exact ⟨lines.drop (i + 1), List.drop_suffix _ _, rfl⟩
  | none =>
    by_cases hc : (!lines.isEmpty && strStartsWith (lines.headD "") "# ") = true
    · rw [if_pos hc]
      exact ⟨lines.drop 1, List.drop_suffix _ _, rfl⟩
    · rw [if_neg hc]
      exact ⟨lines, List.suffix_refl _, rfl⟩

/-- C1 (counterexample): with a new header block that merely *includes* the
marker line (here as its first of two lines), splicing twice differs from
splicing once, so the claim as stated fails. -/
theorem replaceOrCreateHeader_twice_ne_once :
    replaceOrCreateHeader (replaceOrCreateHeader [] ["M", "y"] "M") ["M", "y"] "M"
      ≠ replaceOrCreateHeader [] ["M", "y"] "M" := by
  decide

/-- C1 (amended): if the new header block consists of a prefix not containing
the marker followed by the marker as its last line, then applying
`replaceOrCreateHeader` twice with that block and marker equals applying it
once, for every document. -/
theorem replaceOrCreateHeader_idem (lines pre : List String) (marker : String)
    (h : marker ∉ pre) :
    replaceOrCreateHeader (replaceOrCreateHeader lines (pre ++ [marker]) marker)
        (pre ++ [marker]) marker
      = replaceOrCreateHeader lines (pre ++ [marker]) marker := by
  obtain ⟨s, _, hs⟩ := replaceOrCreateHeader_shape lines (pre ++ [marker]) marker
  rw [hs]
  have hsplit : pre ++ [marker] ++ s = pre ++ marker :: s := by simp
  rw [hsplit]
  show replaceOrCreateHeader (pre ++ marker :: s) (pre ++ [marker]) marker
    = pre ++ marker :: s
  simp only [replaceOrCreateHeader, idxOfLine_append pre s marker h,
    drop_succ_length_append]
  simp

/-- C1 (witness): the amended idempotence theorem applied at a concrete
document and header block. -/
theorem replaceOrCreateHeader_idem_witness :
    replaceOrCreateHeader (replaceOrCreateHeader ["a"] (["H"] ++ ["M"]) "M")
        (["H"] ++ ["M"]) "M"
      = replaceOrCreateHeader ["a"] (["H"] ++ ["M"]) "M" :=
  replaceOrCreateHeader_idem ["a"] ["H"] "M" (by decide)

/-- C2: `replaceOrCreateHeader` locates the first line equal to the marker;
if found (document decomposes as `pre ++ marker :: rest` with the marker not
in `pre`), lines `0` through the marker inclusive are replaced by the new
block; otherwise the single leading line is dropped exactly when it starts
with `"# "`, and the new block is prepended. -/
theorem replaceOrCreateHeader_spec (lines nh : List String) (marker : String) :
    (∀ pre rest, marker ∉ pre → lines = pre ++ marker :: rest →
      replaceOrCreateHeader lines nh marker = nh ++ rest)
    ∧ (marker ∉ lines →
      replaceOrCreateHeader lines nh marker =
        nh ++ (if !lines.isEmpty && strStartsWith (lines.headD "") "# "
               then lines.drop 1 else lines)) := by
  constructor
  · intro pre rest hpre heq
    subst heq
    simp only [replaceOrCreateHeader, idxOfLine_append pre rest marker hpre,
      drop_succ_length_append]
  · intro h
    have h0 : idxOfLine lines marker = none := (idxOfLine_eq_none _ _).mpr h
    simp only [replaceOrCreateHeader, h0]
    split <;> rfl

/-- C2 (witness): the characterization applied to a concrete document whose
second line is the marker. -/
theorem replaceOrCreateHeader_spec_witness :
    replaceOrCreateHeader ["# T", "M", "x"] ["H", "M"] "M" = ["H", "M"] ++ ["x"] :=
  (replaceOrCreateHeader_spec ["# T", "M", "x"] ["H", "M"] "M").1
    ["# T"] ["x"] (by decide) rfl

/-- C3: frame property of the splicer. If the marker occurs, everything after
its first occurrence follows the inserted block verbatim; if not, the whole
document (or the whole document minus a dropped leading heading line) follows
the inserted block; in every case the output is the new block followed by a
suffix of the original document, so nothing is appended at the end and nothing
outside the header region is touched. -/
theorem replaceOrCreateHeader_frame (lines nh : List String) (marker : String) :
    (marker ∈ lines → ∃ i, idxOfLine lines marker = some i ∧
      replaceOrCreateHeader lines nh marker = nh ++ lines.drop (i + 1))
    ∧ (marker ∉ lines →
      replaceOrCreateHeader lines nh marker = nh ++ lines ∨
        (strStartsWith (lines.headD "") "# " = true ∧
          replaceOrCreateHeader lines nh marker = nh ++ lines.drop 1))
    ∧ (∃ s, s <:+ lines ∧ replaceOrCreateHeader lines nh marker = nh ++ s) := by
  refine ⟨?_, ?_, replaceOrCreateHeader_shape lines nh marker⟩
  · intro hm
    cases h : idxOfLine lines marker with
    | none => exact absurd ((idxOfLine_eq_none _ _).mp h) (by simp [hm])
    | some i =>
      refine ⟨i, rfl, ?_⟩
      simp only [replaceOrCreateHeader, h]
  · intro h
    have h0 : idxOfLine lines marker = none := (idxOfLine_eq_none _ _).mpr h
    simp only [replaceOrCreateHeader, h0]
    by_cases hc : (!lines.isEmpty && strStartsWith (lines.headD "") "# ") = true
    · right
      exact ⟨(Bool.and_eq_true _ _ ▸ hc).2, by rw [if_pos hc]⟩
    · left
      rw [if_neg hc]

/-- C3 (witness): the frame theorem applied at a concrete document without
the marker. -/
theorem replaceOrCreateHeader_frame_witness :
    replaceOrCreateHeader ["a", "b"] ["H"] "M" = ["H"] ++ ["a", "b"] ∨
      (strStartsWith "a" "# " = true ∧
        replaceOrCreateHeader ["a", "b"] ["H"] "M" = ["H"] ++ ["a", "b"].drop 1) :=
  (replaceOrCreateHeader_frame ["a", "b"] ["H"] "M").2.1 (by decide)

/-! ## Drift / validation checks (`expectContent` and the validation part of `generate`) -/

/-- Recorded side effects of the validation pass: the process exit code set by
`process.exitCode = 1` and the sequence of `console.error` messages. -/
structure CheckState where
  exitCode : Nat
  messages : List String
deriving DecidableEq

/-- The message template of `expectContent` (`src/unnamed/part_000`, lines 60-64). -/
def expectMessage (ruleName content : String) (expected : Bool) : String :=
  "`" ++ ruleName ++ "` rule doc should " ++ (if expected then "" else "not ")
    ++ "have included: " ++ content

/-- Embedding of `expectContent` (`src/unnamed/part_000`, lines 53-67): when the
containment of `content` in `contents` differs from `expected`, print a failure
message and set a failing exit code; otherwise leave the state unchanged. -/
def expectContent (ruleName contents content : String) (expected : Bool)
    (st : CheckState) : CheckState :=
  if strIncludes contents content != expected then
    { exitCode := 1, messages := st.messages ++ [expectMessage ruleName content expected] }
  else
    st

/-- Modelled from the spec: `hasOptions` and `getAllNamedOptions` live in
`rule-options.js`, which is not part of the excerpt. Per the spec, `hasOptions`
holds iff the schema declares at least one configurable option, and
`getAllNamedOptions` extracts the named options; a schema is therefore modelled
by these two derived facts. -/
structure SchemaModel where
  hasOptions : Bool
  namedOptions : List String
deriving DecidableEq

/-- Embedding of the per-rule validation in `generate`
(`src/unnamed/part_000`, lines 118-122): the `"## Options"` section check
followed by one `expectContent` call per named option. -/
def validateRuleDoc (name contents : String) (schema : SchemaModel)
    (st : CheckState) : CheckState :=
  schema.namedOptions.foldl (fun s o => expectContent name contents o true s)
    (expectContent name contents "## Options" schema.hasOptions st)

/-- The failures the validation of one rule doc records, described directly:
the section-heading failure when presence of `"## Options"` differs from
`hasOptions`, then one failure per named option not contained in the doc. -/
def ruleDocFailures (name contents : String) (schema : SchemaModel) : List String :=
  (if strIncludes contents "## Options" != schema.hasOptions
   then [expectMessage name "## Options" schema.hasOptions] else [])
  ++ (schema.namedOptions.filter (fun o => !(strIncludes contents o))).map
      (fun o => expectMessage name o true)

/-- One rule's inputs to the per-rule loop of `generate`: rule name, the doc
contents read from disk, and the rule's options schema. -/
structure RuleDocInput where
  name : String
  contents : String
  schema : SchemaModel

/-- Modelled from the spec: the end-of-header marker string `END_RULE_HEADER_MARKER`
(`markers.js` is not part of the excerpt); its exact value does not affect the
claims proved here. -/
def END_RULE_HEADER_MARKER : String := "<!-- end auto-generated rule header -->"

/-- Embedding of one iteration of the per-rule loop of `generate`
(`src/unnamed/part_000`, lines 99-122): split the doc contents into lines,
splice the freshly generated header, then validate the contents that were read
before the update. The written document is the first component; the validation
state is the second. -/
def processRule (name contents : String) (schema : SchemaModel)
    (newHeaderLines : List String) (st : CheckState) : List String × CheckState :=
  let lines := contents.splitOn "\n"
  let newLines := replaceOrCreateHeader lines newHeaderLines END_RULE_HEADER_MARKER
  let st2 := validateRuleDoc name contents schema st
  (newLines, st2)

/-- The validation pass of `generate` over the whole rule list: the loop body
runs for every rule, threading the failure state through. -/
def generateValidation (rules : List RuleDocInput) (st : CheckState) : CheckState :=
  rules.foldl (fun s r => validateRuleDoc r.name r.contents r.schema s) st

theorem foldl_expectContent (name contents : String) (opts : List String) :
    ∀ st : CheckState,
      opts.foldl (fun s o => expectContent name contents o true s) st =
        { exitCode :=
            if opts.filter (fun o => !(strIncludes contents o)) = []
            then st.exitCode else 1,
          messages := st.messages ++
            (opts.filter (fun o => !(strIncludes contents o))).map
              (fun o => expectMessage name o true) } := by
  induction opts with
  | nil => intro st; cases st; simp
  | cons o rest ih =>
    intro st
    rw [List.foldl_cons, ih]
    by_cases hc : strIncludes contents o = true
    · have he : expectContent name contents o true st = st := by
        simp [expectContent, hc]
      rw [he]
      simp [List.filter_cons, hc]
    · have hc2 : strIncludes contents o = false := by
        cases hx : strIncludes contents o
        · rfl
        · exact absurd hx hc
      have he : expectContent name contents o true st =
          { exitCode := 1, messages := st.messages ++ [expectMessage name o true] } := by
        simp [expectContent, hc2]
      rw [he]
      simp [List.filter_cons, hc2]

/-- C4: validation runs against the pre-update document contents; the recorded
failures are exactly the section-heading failure (iff `"## Options"` presence
differs from whether the schema declares options) plus one failure per named
option absent from the contents; any failure sets exit code 1 while no failure
leaves the exit code unchanged; each failure message is built by
`expectMessage` from the rule name; and the loop proceeds to the remaining
rules regardless of the state. -/
theorem validateRuleDoc_spec (r : RuleDocInput) (nh : List String)
    (st : CheckState) (rs : List RuleDocInput) :
    (processRule r.name r.contents r.schema nh st).2
        = validateRuleDoc r.name r.contents r.schema st
    ∧ validateRuleDoc r.name r.contents r.schema st =
        { exitCode :=
            if ruleDocFailures r.name r.contents r.schema = []
            then st.exitCode else 1,
          messages := st.messages ++ ruleDocFailures r.name r.contents r.schema }
    ∧ generateValidation (r :: rs) st =
        generateValidation rs (validateRuleDoc r.name r.contents r.schema st) := by
  refine ⟨rfl, ?_, rfl⟩
  unfold validateRuleDoc ruleDocFailures
  rw [foldl_expectContent]
  by_cases hb : (strIncludes r.contents "## Options" != r.schema.hasOptions) = true
  · have he : expectContent r.name r.contents "## Options" r.schema.hasOptions st =
        { exitCode := 1,
          messages := st.messages
            ++ [expectMessage r.name "## Options" r.schema.hasOptions] } := by
      unfold expectContent
      rw [if_pos hb]
    rw [he, if_pos hb]
    simp
  · have he : expectContent r.name r.contents "## Options" r.schema.hasOptions st
        = st := by
      unfold expectContent
      rw [if_neg hb]
    rw [he, if_neg hb]
    simp [List.map_eq_nil_iff]

/-- C5 (counterexample): for a rule whose schema declares zero options, a doc
that does contain the `"## Options"` heading is flagged (exit code set, failure
message recorded), contradicting the claim that no failure is recorded
regardless of the doc's content. -/
theorem optionsCheck_fails_when_heading_present :
    validateRuleDoc "no-foo" "## Options"
        { hasOptions := false, namedOptions := [] }
        { exitCode := 0, messages := [] }
      = { exitCode := 1,
          messages := ["`no-foo` rule doc should not have included: ## Options"] } := by
  decide

/-- C5 (amended): for a rule whose schema declares zero configurable options,
the Options-section validation records no failure iff the doc does not contain
the `"## Options"` substring (the check requires the heading to be absent). -/
theorem optionsCheck_no_failure_iff (name contents : String) (schema : SchemaModel)
    (st : CheckState) (h : schema.hasOptions = false) :
    (expectContent name contents "## Options" schema.hasOptions st = st ↔
      strIncludes contents "## Options" = false) := by
  rw [h]
  by_cases hc : strIncludes contents "## Options" = true
  · constructor
    · intro heq
      exfalso
      have h2 := congrArg (fun s => s.messages.length) heq
      simp [expectContent, hc] at h2
    · intro hfalse
      rw [hc] at hfalse
      exact absurd hfalse (by simp)
  · have hc2 : strIncludes contents "## Options" = false := by
      cases hx : strIncludes contents "## Options"
      · rfl
      · exact absurd hx hc
    constructor
    · intro _
      exact hc2
    · intro _
      simp [expectContent, hc2]

/-- C5 (witness): the amended theorem applied at a concrete rule and doc. -/
theorem optionsCheck_no_failure_iff_witness :
    expectContent "no-foo" "nothing here" "## Options"
        (SchemaModel.hasOptions { hasOptions := false, namedOptions := [] })
        { exitCode := 0, messages := [] }
      = { exitCode := 0, messages := [] } ↔
      strIncludes "nothing here" "## Options" = false :=
  optionsCheck_no_failure_iff "no-foo" "nothing here"
    { hasOptions := false, namedOptions := [] } { exitCode := 0, messages := [] } rfl

/-! ## Metadata Normalizer (the detail-gathering pass of `generate`) -/

/-- The `meta.docs` sub-record of a raw rule entry. -/
structure RuleDocsMeta where
  description : Option String
  requiresTypeChecking : Option Bool

/-- The `meta` record of a raw rule entry, as read by `generate`
(`src/unnamed/part_000`, lines 85-95) and by the TYPE legend. -/
structure RuleMeta where
  docs : RuleDocsMeta
  fixable : Option String
  hasSuggestions : Option Bool
  deprecated : Option Bool
  schema : SchemaModel
  type : Option String

/-- A raw rule entry: `meta` may be absent, in which case the entry is
filtered out of the detail-gathering pass. -/
structure RuleModule where
  meta : Option RuleMeta

/-- The canonical `RuleDetails` record (`src/lib/types.ts`, lines 38-47). -/
structure RuleDetails where
  name : String
  description : Option String
  fixable : Bool
  hasSuggestions : Bool
  requiresTypeChecking : Bool
  deprecated : Bool
  schema : SchemaModel
  type : Option String

/-- Embedding of the per-rule mapping inside `generate`
(`src/unnamed/part_000`, lines 84-96). JavaScript truthiness of
`rule.meta.fixable` is non-emptiness of the string; `?? false` is `getD false`.
The source object literal sets no `type` property, so `type` is `none`. -/
def normalizeRule (name : String) (m : RuleMeta) : RuleDetails :=
  { name := name
    description := m.docs.description
    fixable :=
      match m.fixable with
      | none => false
      | some f => if f = "" then false else decide (f ∈ ["code", "whitespace"])
    hasSuggestions := m.hasSuggestions.getD false
    requiresTypeChecking := m.docs.requiresTypeChecking.getD false
    deprecated := m.deprecated.getD false
    schema := m.schema
    type := none }

/-- Embedding of the detail-gathering pass of `generate`
(`src/unnamed/part_000`, lines 80-96): entries without `meta` are filtered out,
the rest are normalized in enumeration order. -/
def gatherDetails (rules : List (String × RuleModule)) : List RuleDetails :=
  (rules.filterMap (fun p => p.2.meta.map (fun m => (p.1, m)))).map
    (fun q => normalizeRule q.1 q.2)

/-- C7: the normalized `fixable` flag is true iff the declared `meta.fixable`
is exactly `some "code"` or `some "whitespace"`; any other value, absent
included, yields false. -/
theorem fixable_iff (name : String) (m : RuleMeta) :
    (normalizeRule name m).fixable = true ↔
      m.fixable = some "code" ∨ m.fixable = some "whitespace" := by
  cases hf : m.fixable with
  | none => simp [normalizeRule, hf]
  | some f =>
    simp only [normalizeRule, hf]
    by_cases he : f = ""
    · subst he
      decide
    · simp [if_neg he, decide_eq_true_eq]

/-- C8 (counterexample): a raw rule entry declaring `meta.type` is normalized
to a `RuleDetails` whose `type` field is `none`, so the declared category is
not carried over as the claim states. -/
theorem normalizeRule_type_dropped :
    (normalizeRule "no-foo"
      { docs := { description := some "desc", requiresTypeChecking := some false },
        fixable := none, hasSuggestions := some false, deprecated := some false,
        schema := { hasOptions := false, namedOptions := [] },
        type := some "problem" }).type = none
    ∧ (normalizeRule "no-foo"
      { docs := { description := some "desc", requiresTypeChecking := some false },
        fixable := none, hasSuggestions := some false, deprecated := some false,
        schema := { hasOptions := false, namedOptions := [] },
        type := some "problem" }).type ≠ some "problem" := by
  exact ⟨rfl, by decide⟩

/-- C8 (amended): the Metadata Normalizer never populates the `type` field of
its output: every normalized record, and every record produced by the
detail-gathering pass, has `type = none`, even when `meta.type` is declared. -/
theorem normalizeRule_type_none (name : String) (m : RuleMeta)
    (rules : List (String × RuleModule)) :
    (normalizeRule name m).type = none
    ∧ (gatherDetails rules).all (fun d => d.type == none) = true := by
  refine ⟨rfl, ?_⟩
  simp only [gatherDetails, List.all_eq_true, List.mem_map]
  rintro d ⟨q, hq, rfl⟩
  rfl

/-! ## Legend rendering (`src/lib/legend.ts`) -/

/-- Modelled from the spec: the generic config glyph `EMOJI_CONFIG`
(`emojis.js` is not part of the excerpt); its exact value does not affect the
claims proved here. -/
def EMOJI_CONFIG : String := "💼"

/-- Modelled from the spec: the generic rule-type glyph `EMOJI_TYPE`
(`emojis.js` is not part of the excerpt); its exact value does not affect the
claims proved here. -/
def EMOJI_TYPE : String := "🗂️"

/-- One `configEmoji` entry (`src/lib/types.ts`, line 52): a config name with
its emoji glyph (the empty string plays the role of a missing glyph, exactly
as a falsy emoji does in the source). -/
structure ConfigEmojiEntry where
  config : String
  emoji : String

/-- The `configsLinkOrWord` local of the CONFIGS legend
(`src/lib/legend.ts`, lines 47-49). -/
def configsWord (urlConfigs : Option String) : String :=
  match urlConfigs with
  | some u => "[Configurations](" ++ u ++ ")"
  | none => "Configurations"

/-- The `configLinkOrWord` local of the CONFIGS legend
(`src/lib/legend.ts`, lines 50-52). -/
def configWord (urlConfigs : Option String) : String :=
  match urlConfigs with
  | some u => "[configuration](" ++ u ++ ")"
  | none => "configuration"

/-- The `configNamesWithoutIgnored` local (`src/lib/legend.ts`, lines 54-56). -/
def nonIgnoredConfigs (configNames ignoreConfig : List String) : List String :=
  configNames.filter (fun c => !(ignoreConfig.contains c))

/-- The generic CONFIGS legend line (`src/lib/legend.ts`, line 66). -/
def genericConfigLine (urlConfigs : Option String) : String :=
  EMOJI_CONFIG ++ " " ++ configsWord urlConfigs ++ " enabled in."

/-- The per-config CONFIGS legend line (`src/lib/legend.ts`, line 78). -/
def perConfigLine (urlConfigs : Option String) (configName emoji : String) : String :=
  emoji ++ " Enabled in the `" ++ configName ++ "` " ++ configWord urlConfigs ++ "."

/-- JavaScript truthiness of the optionally-found emoji string
(`configEmojis.find(...)?.emoji` under `!`): truthy iff present and non-empty. -/
def emojiTruthy (x : Option String) : Bool :=
  match x with
  | some em => !(em == "")
  | none => false

/-- The body of the per-config `flatMap` (`src/lib/legend.ts`, lines 69-80),
applied to the optionally-found emoji of one config. -/
def perConfigCell (urlConfigs : Option String) (configName : String)
    (x : Option String) : List String :=
  match x with
  | some em => if em == "" then [] else [perConfigLine urlConfigs configName em]
  | none => []

/-- Embedding of the CONFIGS legend function (`src/lib/legend.ts`,
lines 27-83). `plugin.configs` is modelled by the optional list of its config
names (`none` = the property is absent, which is the only falsy case of
`!plugin.configs`); the defensive `throw` is the `Except.error` branch. The
source's `let`-bound locals are inlined. -/
def configsLegendLines (configs : Option (List String))
    (configEmojis : List ConfigEmojiEntry) (ignoreConfig : List String)
    (urlConfigs : Option String) : Except String (List String) :=
  match configs with
  | none =>
    Except.error
      "Should not be attempting to display configs column when there are no configs."
  | some configNames =>
    Except.ok (
      (if decide ((nonIgnoredConfigs configNames ignoreConfig).length > 1)
          || !(emojiTruthy ((configEmojis.find?
                (fun e => (nonIgnoredConfigs configNames ignoreConfig).contains e.config)).map
                (fun e => e.emoji)))
       then [genericConfigLine urlConfigs] else [])
      ++ (nonIgnoredConfigs configNames ignoreConfig).flatMap (fun configName =>
          perConfigCell urlConfigs configName
            ((configEmojis.find? (fun e => e.config == configName)).map
              (fun e => e.emoji))))

/-- The emoji assigned to a config, if any: the emoji of the first
`configEmojis` entry for that config, with the empty string counting as no
assignment. -/
def assignedEmoji (configEmojis : List ConfigEmojiEntry) (c : String) :
    Option String :=
  match configEmojis.find? (fun e => e.config == c) with
  | some e => if e.emoji == "" then none else some e.emoji
  | none => none

/-- One per-config legend line for each non-ignored config that has an
assigned emoji, in config order. -/
def configEmojiLines (urlConfigs : Option String)
    (configEmojis : List ConfigEmojiEntry) (nz : List String) : List String :=
  nz.filterMap (fun c =>
    (assignedEmoji configEmojis c).map (fun em => perConfigLine urlConfigs c em))

/-- Whether exactly one non-ignored config remains and it has an assigned
emoji — the one situation in which the source omits the generic line. -/
def soleConfigWithEmoji (configEmojis : List ConfigEmojiEntry)
    (nz : List String) : Bool :=
  match nz with
  | [c] => (assignedEmoji configEmojis c).isSome
  | _ => false

theorem find?_congr {p q : ConfigEmojiEntry → Bool} (l : List ConfigEmojiEntry)
    (h : ∀ a, p a = q a) : l.find? p = l.find? q := by
  induction l with
  | nil => rfl
  | cons a t ih => rw [List.find?_cons, List.find?_cons, h a, ih]

theorem contains_singleton (c : String) (x : String) :
    ([c].contains x) = (x == c) := by
  cases h : x == c <;> simp [List.contains, List.elem, h]

theorem genericNeeded_eq (ce : List ConfigEmojiEntry) (nz : List String) :
    (decide (nz.length > 1)
      || !(emojiTruthy ((ce.find? (fun e => nz.contains e.config)).map
            (fun e => e.emoji))))
      = !(soleConfigWithEmoji ce nz) := by
  match nz with
  | [] =>
    have hfind : ce.find? (fun e => ([] : List String).contains e.config) = none := by
      rw [List.find?_eq_none]
      intro x _
      simp
    rw [hfind]
    rfl
  | [c] =>
    have hfind : ce.find? (fun e => ([c] : List String).contains e.config)
        = ce.find? (fun e => e.config == c) :=
      find?_congr ce (fun e => contains_singleton c e.config)
    rw [hfind]
    cases hf : ce.find? (fun e => e.config == c) with
    | none =>
      simp only [soleConfigWithEmoji, assignedEmoji, hf]
      rfl
    | some e =>
      cases hemoji : e.emoji == "" <;>
        simp [soleConfigWithEmoji, assignedEmoji, hf, hemoji, emojiTruthy]
  | c1 :: c2 :: rest =>
    have hlen : decide ((c1 :: c2 :: rest).length > 1) = true := by
      simp
    rw [hlen, Bool.true_or]
    rfl

theorem perConfigCell_eq (url : Option String) (ce : List ConfigEmojiEntry)
    (c : String) :
    perConfigCell url c ((ce.find? (fun e => e.config == c)).map (fun e => e.emoji))
      = ((assignedEmoji ce c).map (fun em => perConfigLine url c em)).toList := by
  cases hf : ce.find? (fun e => e.config == c) with
  | none => simp [perConfigCell, assignedEmoji, hf]
  | some e =>
    cases hemoji : e.emoji == "" <;>
      simp [perConfigCell, assignedEmoji, hf, hemoji]

theorem flatMap_perConfigCell (url : Option String) (ce : List ConfigEmojiEntry) :
    ∀ nz : List String,
      nz.flatMap (fun configName =>
        perConfigCell url configName
          ((ce.find? (fun e => e.config == configName)).map (fun e => e.emoji)))
        = configEmojiLines url ce nz := by
  intro nz
  induction nz with
  | nil => rfl
  | cons c t ih =>
    rw [List.flatMap_cons, ih, perConfigCell_eq]
    unfold configEmojiLines
    rw [List.filterMap_cons]
    cases ha : (assignedEmoji ce c).map (fun em => perConfigLine url c em) with
    | none => simp
    | some line => simp

theorem legendLines_ne_nil (url : Option String) (ce : List ConfigEmojiEntry)
    (nz : List String) :
    (if soleConfigWithEmoji ce nz then [] else [genericConfigLine url])
      ++ configEmojiLines url ce nz ≠ [] := by
  cases hsole : soleConfigWithEmoji ce nz
  · simp
  · match nz, hsole with
    | [c], hsole =>
      have hsome : (assignedEmoji ce c).isSome = true := hsole
      obtain ⟨em, hem⟩ := Option.isSome_iff_exists.mp hsome
      simp [configEmojiLines, hem]

/-- C6 (counterexample): a plugin with one config which is ignored has zero
non-ignored configs, yet the CONFIGS legend emits the generic line — whereas
the claim's condition (more than one non-ignored config, or a sole non-ignored
config without emoji) is false, predicting no generic line. -/
theorem configsLegend_generic_when_all_ignored :
    nonIgnoredConfigs ["all"] ["all"] = []
    ∧ configsLegendLines (some ["all"]) [] ["all"] none
        = Except.ok [genericConfigLine none] := by
  constructor
  · rfl
  · rfl

/-- C6 (amended): for a plugin with at least one config, the CONFIGS legend
renders without error; the generic line is emitted iff it is not the case that
exactly one non-ignored config remains and it has an assigned emoji (in
particular it is also emitted when zero non-ignored configs remain); it is
followed by one line per non-ignored config with an assigned emoji, naming the
config and its glyph; and at least one legend line is always emitted. -/
theorem configsLegend_spec (configNames : List String)
    (ce : List ConfigEmojiEntry) (ig : List String) (url : Option String)
    (hne : configNames ≠ []) :
    configsLegendLines (some configNames) ce ig url =
      Except.ok ((if soleConfigWithEmoji ce (nonIgnoredConfigs configNames ig)
                  then [] else [genericConfigLine url])
        ++ configEmojiLines url ce (nonIgnoredConfigs configNames ig))
    ∧ (if soleConfigWithEmoji ce (nonIgnoredConfigs configNames ig)
       then [] else [genericConfigLine url])
        ++ configEmojiLines url ce (nonIgnoredConfigs configNames ig) ≠ [] := by
  refine ⟨?_, legendLines_ne_nil url ce (nonIgnoredConfigs configNames ig)⟩
  simp only [configsLegendLines]
  rw [genericNeeded_eq, flatMap_perConfigCell]
  cases hsole : soleConfigWithEmoji ce (nonIgnoredConfigs configNames ig) <;>
    simp [hsole]

/-- C6 (witness): the amended characterization applied to a plugin with a
single config carrying an emoji. -/
theorem configsLegend_spec_witness :
    configsLegendLines (some ["recommended"])
        [{ config := "recommended", emoji := "✅" }] [] none =
      Except.ok ((if soleConfigWithEmoji [{ config := "recommended", emoji := "✅" }]
                    (nonIgnoredConfigs ["recommended"] [])
                  then [] else [genericConfigLine none])
        ++ configEmojiLines none [{ config := "recommended", emoji := "✅" }]
            (nonIgnoredConfigs ["recommended"] []))
    ∧ (if soleConfigWithEmoji [{ config := "recommended", emoji := "✅" }]
          (nonIgnoredConfigs ["recommended"] [])
       then [] else [genericConfigLine none])
        ++ configEmojiLines none [{ config := "recommended", emoji := "✅" }]
            (nonIgnoredConfigs ["recommended"] []) ≠ [] :=
  configsLegend_spec ["recommended"] [{ config := "recommended", emoji := "✅" }]
    [] none (by decide)

/-- A value of `plugin.rules`: either a legacy function-style rule (filtered
out by the `typeof rule === 'object'` guard) or an object rule with its
`meta.type`. -/
inductive PluginRuleValue where
  | func
  | obj (metaType : Option String)

/-- Modelled from the spec: the canonical rule-category order `RULE_TYPES`
(`rule-type.js` is not part of the excerpt); the spec requires a fixed
canonical category order. -/
def RULE_TYPES : List String := ["problem", "suggestion", "layout"]

/-- Modelled from the spec: the per-category legend text
`RULE_TYPE_MESSAGES_LEGEND` (`rule-type.js` is not part of the excerpt); its
exact wording does not affect the claims proved here. -/
def RULE_TYPE_MESSAGES_LEGEND (ruleType : String) : String :=
  "Legend line for the " ++ ruleType ++ " rule type."

/-- Embedding of the TYPE legend function (`src/lib/legend.ts`, lines 86-113).
`plugin.rules` is modelled by the optional list of its rule values (`none` =
the property is absent); the loop state is the legend list plus the
`hasAnyRuleType` flag. -/
def typeLegendLines (rules : Option (List PluginRuleValue)) :
    Except String (List String) :=
  match rules with
  | none =>
    Except.error
      "Should not be attempting to display type column when there are no rules."
  | some rs =>
    Except.ok ((RULE_TYPES.foldl (fun (st : List String × Bool) ruleType =>
      if rs.any (fun r =>
          match r with
          | .obj t => t == some ruleType
          | .func => false) then
        let st1 := if !st.2
          then (st.1 ++ [EMOJI_TYPE ++ " The type of rule."], true)
          else st
        (st1.1 ++ [RULE_TYPE_MESSAGES_LEGEND ruleType], st1.2)
      else st) (([] : List String), false)).1)

/-- C9 (counterexample): a plugin exposing zero configs via an empty (but
present) configs record, and zero rules via an empty rules record, renders
both legends without any internal error, contrary to the claim. -/
theorem legend_empty_maps_no_error :
    configsLegendLines (some []) [] [] none = Except.ok [genericConfigLine none]
    ∧ typeLegendLines (some []) = Except.ok [] := by
  constructor
  · rfl
  · rfl

/-- C9 (amended): the internal error is raised exactly when the plugin's
`configs` (resp. `rules`) record is absent; any present record — empty
included — renders without error. -/
theorem legend_error_iff_absent (ce : List ConfigEmojiEntry) (ig : List String)
    (url : Option String) (configNames : List String)
    (rs : List PluginRuleValue) :
    configsLegendLines none ce ig url =
      Except.error
        "Should not be attempting to display configs column when there are no configs."
    ∧ typeLegendLines none =
      Except.error
        "Should not be attempting to display type column when there are no rules."
    ∧ (∃ ls, configsLegendLines (some configNames) ce ig url = Except.ok ls)
    ∧ (∃ ls, typeLegendLines (some rs) = Except.ok ls) :=
  ⟨rfl, rfl, ⟨_, rfl⟩, ⟨_, rfl⟩⟩

/-! ## Severity tiers (`src/lib/types.ts`, lines 18-34) -/

/-- A raw severity encoding: numeric (`0`, `1`, `2`) or string
(`"off"`, `"warn"`, `"error"`). -/
inductive RuleSeverity where
  | num : Nat → RuleSeverity
  | str : String → RuleSeverity
deriving DecidableEq

/-- Embedding of `SEVERITY_ERROR = new Set([2, 'error'])`. -/
def SEVERITY_ERROR : List RuleSeverity := [.num 2, .str "error"]

/-- Embedding of `SEVERITY_WARN = new Set([1, 'warn'])`. -/
def SEVERITY_WARN : List RuleSeverity := [.num 1, .str "warn"]

/-- Embedding of `SEVERITY_OFF = new Set([0, 'off'])`. -/
def SEVERITY_OFF : List RuleSeverity := [.num 0, .str "off"]

/-- The severity-tier enum (`SEVERITY_TYPE`). -/
inductive SEVERITY_TYPE where
  | error
  | warn
  | off
deriving DecidableEq

/-- Embedding of `SEVERITY_TYPE_TO_SET`. -/
def SEVERITY_TYPE_TO_SET : SEVERITY_TYPE → List RuleSeverity
  | .error => SEVERITY_ERROR
  | .warn => SEVERITY_WARN
  | .off => SEVERITY_OFF

/-- C10: the three severity sets are pairwise disjoint — an encoding belonging
to the sets of two tiers forces the tiers to be equal, so every raw severity
is classified into at most one tier by `SEVERITY_TYPE_TO_SET`. -/
theorem severity_sets_disjoint (s : RuleSeverity) (t1 t2 : SEVERITY_TYPE)
    (h1 : s ∈ SEVERITY_TYPE_TO_SET t1) (h2 : s ∈ SEVERITY_TYPE_TO_SET t2) :
    t1 = t2 := by
  cases t1 <;> cases t2 <;>
    first
    | rfl
    | (exfalso
       simp only [SEVERITY_TYPE_TO_SET, SEVERITY_ERROR, SEVERITY_WARN, SEVERITY_OFF,
         List.mem_cons, List.not_mem_nil, or_false] at h1 h2
       rcases h1 with rfl | rfl <;> rcases h2 with h2 | h2 <;>
         exact absurd h2 (by decide))

/-- C10 (witness): the disjointness theorem applied at the encoding `2`, which
lies in the error set. -/
theorem severity_sets_disjoint_witness : SEVERITY_TYPE.error = SEVERITY_TYPE.error :=
  severity_sets_disjoint (.num 2) .error .error (by decide) (by decide)

end EDG
